import Mathlib

/-!
A shallow embedding of `mmdb_server.py` (mmdb-server): the lookup
aggregation engine, country enrichment, notification publishing, the two
falcon endpoint handlers, startup registry loading and shutdown cleanup.

Python's dynamic JSON-like values are modelled by `JVal`; Python `dict`s
are modelled as association lists together with operations `dictGet`,
`dictSet`, `dictContains`, `dictUpdate` mirroring `d[k]`, `d[k] = v`,
`k in d` and `d.update(u)`.  External collaborators (the maxminddb
reader, the redis client, `ipaddress.ip_address`, file reads,
`time.strftime`) are supplied as function-valued parameters; a Python
call that may raise is modelled with `Except String`.  Side effects that
the claims talk about (publishes, reader queries, log lines) are
collected in an explicit `Eff` trace.
-/

/-- Dynamic JSON-like values (strings, integers, nested objects),
the universe of raw database answers and country records. -/
inductive JVal where
  | str (s : String)
  | int (n : Int)
  | obj (fields : List (String × JVal))
deriving Repr

/-- Python `k in d` on a dict modelled as an association list. -/
def dictContains {α : Type} : List (String × α) → String → Bool
  | [], _ => false
  | p :: t, k => p.1 == k || dictContains t k

/-- Python `d[k]` / `d.get(k)`: the value at the first occurrence of `k`. -/
def dictGet {α : Type} : List (String × α) → String → Option α
  | [], _ => none
  | p :: t, k => if p.1 == k then some p.2 else dictGet t k

/-- Python `d[k] = v`: replace the value at `k` in place, else append. -/
def dictSet {α : Type} (d : List (String × α)) (k : String) (v : α) :
    List (String × α) :=
  if dictContains d k then
    d.map (fun p => if p.1 == k then (k, v) else p)
  else d ++ [(k, v)]

/-- Python `d.update(u)`: assign every key/value pair of `u` into `d`. -/
def dictUpdate {α : Type} (d u : List (String × α)) : List (String × α) :=
  u.foldl (fun acc p => dictSet acc p.1 p.2) d

/-- A raw database answer (`reader.get` result): a free-form mapping. -/
abbrev GeoResult : Type := List (String × JVal)

/-- A processed lookup entry (one element of the aggregated response). -/
abbrev GeoEntry : Type := List (String × JVal)

/-- One registered database: the per-database dict built by
`MMDBServer._load_mmdb_databases` (the external reader's `get` is the
`reader` field; a raising `get` is an `Except.error`). -/
structure MMDBMeta where
  reader : String → Except String (Option GeoResult)
  description : List (String × String)
  build_db : String
  db_source : String
  nb_nodes : Nat

/-- The server object: configuration flags, the optional redis client
(`rdb` is `true` when a client is held, with the external `publish`
call), the country table, the database registry and the external
`ipaddress.ip_address` parser (`Except.error` models `ValueError`). -/
structure MMDBServer where
  pubsub : Bool
  rdb : Bool
  publish : String → String → Except String Nat
  country_info : List (String × JVal)
  mmdbs : List MMDBMeta
  ip_address : String → Except String Unit

/-- The `"meta"` sub-dict attached by `process_georesult`. -/
def metaJVal (mmdb : MMDBMeta) : JVal :=
  JVal.obj
    [("description", JVal.obj (mmdb.description.map (fun p => (p.1, JVal.str p.2)))),
     ("build_db", JVal.str mmdb.build_db),
     ("db_source", JVal.str mmdb.db_source),
     ("nb_nodes", JVal.int mmdb.nb_nodes)]

/-- Python `k in v` for a dynamic value `v`: key test on dicts,
substring test on strings, `TypeError` on integers. -/
def jvalHasKey (v : JVal) (k : String) : Except String Bool :=
  match v with
  | JVal.obj fs => Except.ok (dictContains fs k)
  | JVal.str s => Except.ok (k == "" || (s.splitOn k).length ≥ 2)
  | JVal.int _ => Except.error "argument of type int is not iterable"

/-- Python `v[k]` for a dynamic value `v`: indexing a dict, `TypeError`
on strings and integers. -/
def jvalIndex (v : JVal) (k : String) : Except String JVal :=
  match v with
  | JVal.obj fs =>
    match dictGet fs k with
    | some w => Except.ok w
    | none => Except.error ("KeyError: " ++ k)
  | JVal.str _ => Except.error "string indices must be integers"
  | JVal.int _ => Except.error "int object is not subscriptable"

/-- `MMDBServer.valid_ip_address`: `True` iff the external
`ipaddress.ip_address` call does not raise. -/
def valid_ip_address (server : MMDBServer) (ip_addr : String) : Bool :=
  match server.ip_address ip_addr with
  | Except.ok _ => true
  | Except.error _ => false

/-- `MMDBServer.country_lookup`: the stored record unless the code is
the literal `"Unknown"` or absent; non-string codes never match a key. -/
def country_lookup (server : MMDBServer) (country : JVal) : JVal :=
  match country with
  | JVal.str s =>
    if s ≠ "Unknown" then
      match dictGet server.country_info s with
      | some v => v
      | none => JVal.obj []
    else JVal.obj []
  | _ => JVal.obj []

/-- Observable side effects of request handling: a completed redis
publish, a reader `get` invocation, a `logger.error` line. -/
inductive Eff where
  | published (channel msg : String)
  | dbQuery (dbSource ip : String)
  | logged (msg : String)
deriving Repr, DecidableEq

/-- `MMDBServer.pub_lookup`: returns `False` (no effect) unless pubsub
is configured and a client is held, else publishes on the fixed channel;
a raising `publish` propagates (there is no handler in the source). -/
def pub_lookup (server : MMDBServer) (value : String) :
    Except String (Bool × List Eff) :=
  if server.pubsub = false ∨ server.rdb = false then Except.ok (false, [])
  else
    match server.publish "mmdb-server::lookup" value with
    | Except.ok _ => Except.ok (true, [Eff.published "mmdb-server::lookup" value])
    | Except.error e => Except.error e

/-- `BaseGeoLookup.process_georesult`: start from `meta`/`ip`, merge in
every raw answer field (`result.update(georesult)`), then attach
`country_info` resolved from the nested `country.iso_code` when the
short-circuit check `"country" in georesult and "iso_code" in
georesult["country"]` holds; dynamic `TypeError`s propagate. -/
def process_georesult (server : MMDBServer) (georesult : GeoResult)
    (mmdb : MMDBMeta) (ip : String) : Except String GeoEntry :=
  let result := dictUpdate [("meta", metaJVal mmdb), ("ip", JVal.str ip)] georesult
  match dictGet georesult "country" with
  | none => Except.ok (dictSet result "country_info" (JVal.obj []))
  | some cv =>
    match jvalHasKey cv "iso_code" with
    | Except.error e => Except.error e
    | Except.ok false => Except.ok (dictSet result "country_info" (JVal.obj []))
    | Except.ok true =>
      match jvalIndex cv "iso_code" with
      | Except.error e => Except.error e
      | Except.ok code =>
        Except.ok (dictSet result "country_info" (country_lookup server code))

/-- One iteration of the `lookup_ip` loop over a database: the produced
entry (if any) and the trace (the reader query, plus the `logger.error`
line when the reader or the processing raises). -/
def dbStep (server : MMDBServer) (ip : String) (mmdb : MMDBMeta) :
    Option GeoEntry × List Eff :=
  match mmdb.reader ip with
  | Except.error e =>
    (none, [Eff.dbQuery mmdb.db_source ip,
            Eff.logged ("Error processing result from " ++ mmdb.db_source ++ ": " ++ e)])
  | Except.ok none => (none, [Eff.dbQuery mmdb.db_source ip])
  | Except.ok (some georesult) =>
    match process_georesult server georesult mmdb ip with
    | Except.error e =>
      (none, [Eff.dbQuery mmdb.db_source ip,
              Eff.logged ("Error processing result from " ++ mmdb.db_source ++ ": " ++ e)])
    | Except.ok entry => (some entry, [Eff.dbQuery mmdb.db_source ip])

/-- The `for mmdb in self.server.mmdbs` loop of `lookup_ip`. -/
def lookupLoop (server : MMDBServer) (ip : String) :
    List MMDBMeta → List GeoEntry × List Eff
  | [] => ([], [])
  | m :: rest =>
    let step := dbStep server ip m
    let restR := lookupLoop server ip rest
    (step.1.toList ++ restR.1, step.2 ++ restR.2)

/-- `BaseGeoLookup.lookup_ip`: aggregate over the registry; every
per-database exception is caught inside the loop, so this is total. -/
def lookup_ip (server : MMDBServer) (ip : String) : List GeoEntry × List Eff :=
  lookupLoop server ip server.mmdbs

/-- An incoming falcon request: the `User-Agent` header (possibly
absent) and the forwarded-address chain `req.access_route`. -/
structure Request where
  userAgent : Option String
  access_route : List String

/-- `resp.media`: unset, a string (the 422 body), or the entry list. -/
inductive Media where
  | unset
  | str (s : String)
  | entries (es : List GeoEntry)

/-- A falcon response: the status (200 unless assigned) and the media. -/
structure Response where
  status : Nat
  media : Media

/-- The fixed 422 body (two adjacent literals in the source, no space
after the first period). -/
def errBody : String :=
  "IPv4 or IPv6 address is in an incorrect format." ++
  "Dotted decimal for IPv4 or textual representation for IPv6 are required."

/-- Python `str` of a list of strings, as interpolated by the f-string
`f"{value} via {ips} using {ua}"`. -/
def pyStrOfList (xs : List String) : String :=
  "[" ++ String.intercalate ", " (xs.map (fun s => "'" ++ s ++ "'")) ++ "]"

/-- Python `str` of an optional header value (`None` when absent). -/
def uaStr : Option String → String
  | none => "None"
  | some s => s

/-- The event text built by `GeoLookup.on_get` for `pub_lookup`. -/
def eventText (req : Request) (value : String) : String :=
  value ++ " via " ++ pyStrOfList req.access_route ++ " using " ++ uaStr req.userAgent

/-- `GeoLookup.on_get` (route `/geolookup/{value}`): reject invalid
addresses with 422 and the fixed body; otherwise publish the lookup
event (a raising publish propagates: `Except.error`) and answer 200
with the aggregated entries.  The first component is the effect trace. -/
def geoLookupOnGet (server : MMDBServer) (req : Request) (value : String) :
    List Eff × Except String Response :=
  if valid_ip_address server value = false then
    ([], Except.ok { status := 422, media := Media.str errBody })
  else
    match pub_lookup server (eventText req value) with
    | Except.error e => ([], Except.error e)
    | Except.ok r =>
      let lk := lookup_ip server value
      (r.2 ++ lk.2, Except.ok { status := 200, media := Media.entries lk.1 })

/-- `MyGeoLookup.on_get` (route `/`): look up the first entry of the
forwarded-address chain when the chain is non-empty, else do nothing. -/
def myGeoLookupOnGet (server : MMDBServer) (req : Request) :
    List Eff × Response :=
  match req.access_route with
  | [] => ([], { status := 200, media := Media.unset })
  | ip :: _ =>
    let lk := lookup_ip server ip
    (lk.2, { status := 200, media := Media.entries lk.1 })

/-- A held resource handle (a maxminddb reader, the redis connection or
the HTTP listener) together with the external behaviour of its `close`
call: `closeFails = some e` means close raises `e` (and, the code making
no further attempt, the handle's state is unchanged). -/
structure Handle where
  closed : Bool
  closeFails : Option String
deriving Repr, DecidableEq

/-- One guarded close call (`try: ... close() except ...`): the new
handle state and the raised message, if any. -/
def closeHandle (h : Handle) : Handle × Option String :=
  match h.closeFails with
  | some e => (h, some e)
  | none => ({ h with closed := true }, none)

/-- The runtime resources `cleanup` walks over: the readers held in
`self.mmdbs`, the optional redis client, the optional HTTP server. -/
structure ServerRuntime where
  mmdbHandles : List Handle
  rdb : Option Handle
  httpd : Option Handle
deriving Repr, DecidableEq

/-- The `for mmdb in self.mmdbs` close loop of `cleanup`, collecting
the `logger.error` lines of raising closes. -/
def closeAllMmdbs : List Handle → List Handle × List String
  | [] => ([], [])
  | h :: t =>
    let c := closeHandle h
    let rest := closeAllMmdbs t
    (c.1 :: rest.1,
     (match c.2 with
      | some e => ["Error closing MMDB database: " ++ e]
      | none => []) ++ rest.2)

/-- `MMDBServer.cleanup`: close every reader, then the redis connection
if held, then shut the HTTP server down (its `shutdown()` +
`server_close()` pair is one guarded step); every step's failure is
logged and the walk continues.  Returns the new state and the log. -/
def cleanup (s : ServerRuntime) : ServerRuntime × List String :=
  let dbs := closeAllMmdbs s.mmdbHandles
  let rdbR : Option Handle × List String :=
    match s.rdb with
    | none => (none, [])
    | some h =>
      match closeHandle h with
      | (h2, none) => (some h2, [])
      | (h2, some e) => (some h2, ["Error closing Redis connection: " ++ e])
  let httpdR : Option Handle × List String :=
    match s.httpd with
    | none => (none, [])
    | some h =>
      match closeHandle h with
      | (h2, none) => (some h2, [])
      | (h2, some e) => (some h2, ["Error shutting down HTTP server: " ++ e])
  ({ mmdbHandles := dbs.1, rdb := rdbR.1, httpd := httpdR.1 },
   ["Starting graceful shutdown..."] ++ dbs.2 ++ rdbR.2 ++ httpdR.2 ++
   ["Cleanup completed"])

/-- Static metadata of an opened geo-database (`reader.metadata()`). -/
structure Metadata where
  description : List (String × String)
  build_epoch : Nat
  database_type : String
  node_count : Nat

/-- An opened external geo-database reader. -/
structure Reader where
  get : String → Except String (Option GeoResult)
  metadata : Metadata

/-- The per-database dict built inside `_load_mmdb_databases` from an
opened reader (`strftime` is the external `time.strftime` rendering of
`build_epoch`). -/
def mkMeta (reader : Reader) (strftime : Nat → String) : MMDBMeta :=
  { reader := reader.get
    description := reader.metadata.description
    build_db := strftime reader.metadata.build_epoch
    db_source := reader.metadata.database_type
    nb_nodes := reader.metadata.node_count }

/-- `MMDBServer._load_mmdb_databases`: open each path in order with the
external `maxminddb.open_database`; the first raising open aborts the
whole load (the partial list is discarded with the raised exception). -/
def load_mmdb_databases (openDb : String → Except String Reader)
    (strftime : Nat → String) : List String → Except String (List MMDBMeta)
  | [] => Except.ok []
  | f :: rest =>
    match openDb f with
    | Except.error e => Except.error e
    | Except.ok reader =>
      match load_mmdb_databases openDb strftime rest with
      | Except.error e => Except.error e
      | Except.ok ms => Except.ok (mkMeta reader strftime :: ms)

/-- Python `"a,b".split(",")` (as applied to `mmdb_file`): split on
every comma, keeping empty pieces; the empty string yields `[""]`. -/
def splitCommaChars : List Char → List String
  | [] => [""]
  | c :: t =>
    match splitCommaChars t with
    | [] => []
    | h :: r => if c = ',' then "" :: h :: r else String.mk (c :: h.data) :: r

/-- Python `s.split(",")`. -/
def splitComma (s : String) : List String := splitCommaChars s.data

/-- The startup-relevant configuration keys. -/
structure Config where
  mmdb_file : String
  lookup_pubsub : Bool
  port : Nat
  country_file : String

/-- The external collaborators used during startup and serving. -/
structure Externals where
  readJson : String → Except String (List (String × JVal))
  openDb : String → Except String Reader
  strftime : Nat → String
  ip_address : String → Except String Unit
  publish : String → String → Except String Nat

/-- `MMDBServer.__init__` after config parsing: load the country table,
then the registry from the comma-split `mmdb_file`, then hold a redis
client iff pubsub is configured; any raise propagates (no handler). -/
def serverInit (ext : Externals) (cfg : Config) : Except String MMDBServer :=
  match ext.readJson cfg.country_file with
  | Except.error e => Except.error e
  | Except.ok country =>
    match load_mmdb_databases ext.openDb ext.strftime (splitComma cfg.mmdb_file) with
    | Except.error e => Except.error e
    | Except.ok mmdbs =>
      Except.ok
        { pubsub := cfg.lookup_pubsub
          rdb := cfg.lookup_pubsub
          publish := ext.publish
          country_info := country
          mmdbs := mmdbs
          ip_address := ext.ip_address }

/-- Where `main` ends up: serving with a fully constructed server, or
crashed during startup with the propagated exception (a non-zero exit). -/
inductive ProcState where
  | serving (server : MMDBServer)
  | startupFailure (e : String)

/-- `main`: construct the server, then serve; a raise in `__init__`
means the process never reaches the serving state. -/
def mainStart (ext : Externals) (cfg : Config) : ProcState :=
  match serverInit ext cfg with
  | Except.ok s => ProcState.serving s
  | Except.error e => ProcState.startupFailure e

/-! ## Concrete sample instances (used by witnesses and counterexamples) -/

/-- A country record as stored in the country table. -/
def belgiumRecord : JVal :=
  JVal.obj [("name", JVal.str "Belgium"), ("alpha2", JVal.str "BE"),
            ("alpha3", JVal.str "BEL")]

/-- A sample behaviour of the external `ipaddress.ip_address`: only
`"1.2.3.4"` parses. -/
def onlyV4 : String → Except String Unit :=
  fun s =>
    if s = "1.2.3.4" then Except.ok ()
    else Except.error "does not appear to be an IPv4 or IPv6 address"

/-- A database whose answer nests a country code. -/
def beMeta : MMDBMeta :=
  { reader := fun _ =>
      Except.ok (some [("country", JVal.obj [("iso_code", JVal.str "BE")])])
    description := [("en", "GeoOpen Country")]
    build_db := "2024-01-02 03:04:05"
    db_source := "GeoOpen-Country"
    nb_nodes := 1000000 }

/-- A database whose reader raises on every query. -/
def failMeta : MMDBMeta :=
  { reader := fun _ => Except.error "maxminddb read failure"
    description := [("en", "Broken")]
    build_db := "2024-01-01 00:00:00"
    db_source := "broken-db"
    nb_nodes := 7 }

/-- A database whose raw answer carries its own `"meta"` field. -/
def metaOverrideMeta : MMDBMeta :=
  { reader := fun _ => Except.ok (some [("meta", JVal.int 0)])
    description := [("en", "Override")]
    build_db := "2023-05-06 07:08:09"
    db_source := "override-db"
    nb_nodes := 3 }

/-- A pubsub-enabled server with one good and one failing database. -/
def sampleServer : MMDBServer :=
  { pubsub := true
    rdb := true
    publish := fun _ _ => Except.ok 1
    country_info := [("BE", belgiumRecord)]
    mmdbs := [beMeta, failMeta]
    ip_address := onlyV4 }

/-- `sampleServer` with a redis client whose publish raises. -/
def pubFailServer : MMDBServer :=
  { sampleServer with publish := fun _ _ => Except.error "Connection refused" }

/-- `sampleServer` with the meta-overriding database only. -/
def overrideServer : MMDBServer :=
  { sampleServer with mmdbs := [metaOverrideMeta] }

/-- `sampleServer` with a country table keyed by the sentinel itself. -/
def unknownKeyServer : MMDBServer :=
  { sampleServer with country_info := [("Unknown", belgiumRecord)] }

/-- A sample request with one forwarded address. -/
def sampleReq : Request :=
  { userAgent := some "curl/8.0", access_route := ["203.0.113.7"] }

/-- A request whose forwarded-address chain is empty. -/
def emptyRouteReq : Request := { userAgent := none, access_route := [] }

/-- The raw answer `beMeta` returns. -/
def beAnswer : GeoResult := [("country", JVal.obj [("iso_code", JVal.str "BE")])]

/-- The entry `process_georesult` builds from `beAnswer` on `sampleServer`. -/
def beEntry : GeoEntry :=
  [("meta", metaJVal beMeta), ("ip", JVal.str "1.2.3.4"),
   ("country", JVal.obj [("iso_code", JVal.str "BE")]),
   ("country_info", belgiumRecord)]

/-- A raw answer carrying its own `"ip"` field. -/
def ipOverrideAnswer : GeoResult := [("ip", JVal.str "9.9.9.9")]

/-- The entry built from `ipOverrideAnswer`: the raw `"ip"` replaces the
queried address. -/
def ipOverrideEntry : GeoEntry :=
  [("meta", metaJVal beMeta), ("ip", JVal.str "9.9.9.9"),
   ("country_info", JVal.obj [])]

/-- A runtime whose single database handle fails to close. -/
def failCloseRuntime : ServerRuntime :=
  { mmdbHandles := [{ closed := false, closeFails := some "close failure" }]
    rdb := none
    httpd := none }

/-- A runtime mixing a failing close with succeeding ones. -/
def mixedRuntime : ServerRuntime :=
  { mmdbHandles := [{ closed := false, closeFails := some "close failure" },
                    { closed := false, closeFails := none }]
    rdb := some { closed := false, closeFails := none }
    httpd := none }

/-- A sample opened reader. -/
def sampleReader : Reader :=
  { get := fun _ => Except.ok none
    metadata := { description := [("en", "Sample")]
                  build_epoch := 1700000000
                  database_type := "GeoOpen-Country"
                  node_count := 11 } }

/-- Sample externals: every path opens except `"bad.mmdb"`. -/
def sampleExt : Externals :=
  { readJson := fun _ => Except.ok [("BE", belgiumRecord)]
    openDb := fun f =>
      if f = "bad.mmdb" then Except.error "file not found"
      else Except.ok sampleReader
    strftime := fun _ => "2023-11-14 22:13:20"
    ip_address := onlyV4
    publish := fun _ _ => Except.ok 1 }

/-- A configuration whose databases all open. -/
def goodCfg : Config :=
  { mmdb_file := "a.mmdb,b.mmdb", lookup_pubsub := false, port := 8080
    country_file := "country.json" }

/-- A configuration whose second database fails to open. -/
def badCfg : Config :=
  { mmdb_file := "a.mmdb,bad.mmdb,c.mmdb", lookup_pubsub := false, port := 8080
    country_file := "country.json" }

/-! ## Association-list (Python dict) lemmas -/

theorem dictContains_of_mem {α : Type} {d : List (String × α)} {k : String}
    {v : α} (h : (k, v) ∈ d) : dictContains d k = true := by
  induction d with
  | nil => cases h
  | cons p t ih =>
    cases h with
    | head => simp [dictContains]
    | tail _ h => simp [dictContains, ih h]

theorem dictContains_eq_false_of_not_mem {α : Type} {d : List (String × α)}
    {k : String} (h : k ∉ d.map Prod.fst) : dictContains d k = false := by
  induction d with
  | nil => rfl
  | cons p t ih =>
    simp only [List.map_cons, List.mem_cons, not_or] at h
    simp [dictContains, ih h.2, beq_eq_false_iff_ne, Ne.symm h.1]

theorem dictGet_eq_none_of_contains_false {α : Type} {d : List (String × α)}
    {k : String} (h : dictContains d k = false) : dictGet d k = none := by
  induction d with
  | nil => rfl
  | cons p t ih =>
    simp only [dictContains, Bool.or_eq_false_iff] at h
    simp [dictGet, h.1, ih h.2]

theorem dictGet_append {α : Type} (d₁ d₂ : List (String × α)) (k : String) :
    dictGet (d₁ ++ d₂) k =
      match dictGet d₁ k with
      | some v => some v
      | none => dictGet d₂ k := by
  induction d₁ with
  | nil => simp [dictGet]
  | cons p t ih =>
    cases h : p.1 == k with
    | true => simp [dictGet, h]
    | false => simpa [dictGet, h] using ih

theorem dictGet_setMap_self {α : Type} (v : α) (d : List (String × α))
    (k : String) (hc : dictContains d k = true) :
    dictGet (d.map (fun p => if p.1 == k then (k, v) else p)) k = some v := by
  induction d with
  | nil => cases hc
  | cons p t ih =>
    cases h : p.1 == k with
    | true => simp [dictGet, h]
    | false =>
      simp only [dictContains, h, Bool.false_or] at hc
      simp [dictGet, h]
      simpa using ih hc

theorem dictGet_setMap_ne {α : Type} (v : α) (d : List (String × α))
    {k k' : String} (hne : k' ≠ k) :
    dictGet (d.map (fun p => if p.1 == k' then (k', v) else p)) k = dictGet d k := by
  induction d with
  | nil => rfl
  | cons p t ih =>
    cases h : p.1 == k' with
    | true =>
      have hp : p.1 = k' := by simpa using h
      simp [dictGet, h, hp, hne]
      simpa using ih
    | false =>
      cases h2 : p.1 == k with
      | true => simp [dictGet, h, h2]
      | false =>
        simp [dictGet, h, h2]
        simpa using ih

theorem dictGet_dictSet_self {α : Type} (d : List (String × α)) (k : String)
    (v : α) : dictGet (dictSet d k v) k = some v := by
  unfold dictSet
  cases hc : dictContains d k with
  | true =>
    rw [if_pos rfl]
    exact dictGet_setMap_self v d k hc
  | false =>
    rw [if_neg (by simp), dictGet_append]
    simp [dictGet, dictGet_eq_none_of_contains_false hc]

theorem dictGet_dictSet_ne {α : Type} (d : List (String × α)) {k k' : String}
    (v : α) (hne : k' ≠ k) : dictGet (dictSet d k' v) k = dictGet d k := by
  unfold dictSet
  cases hc : dictContains d k' with
  | true =>
    rw [if_pos rfl]
    exact dictGet_setMap_ne v d hne
  | false =>
    rw [if_neg (by simp), dictGet_append]
    cases hg : dictGet d k with
    | some w => simp
    | none => simp [dictGet, beq_iff_eq, hne]

theorem dictGet_dictUpdate_not_contains {α : Type} {u : List (String × α)}
    {k : String} (h : dictContains u k = false) (d : List (String × α)) :
    dictGet (dictUpdate d u) k = dictGet d k := by
  induction u generalizing d with
  | nil => rfl
  | cons p t ih =>
    simp only [dictContains, Bool.or_eq_false_iff] at h
    have h1 : p.1 ≠ k := by simpa [beq_eq_false_iff_ne] using h.1
    show dictGet (dictUpdate (dictSet d p.1 p.2) t) k = dictGet d k
    rw [ih h.2, dictGet_dictSet_ne _ _ h1]

theorem dictGet_dictUpdate_mem {α : Type} {u : List (String × α)}
    {k : String} {v : α} (hnd : (u.map Prod.fst).Nodup) (hmem : (k, v) ∈ u)
    (d : List (String × α)) : dictGet (dictUpdate d u) k = some v := by
  induction u generalizing d with
  | nil => cases hmem
  | cons p t ih =>
    simp only [List.map_cons, List.nodup_cons] at hnd
    cases hmem with
    | head =>
      have hct : dictContains t k = false :=
        dictContains_eq_false_of_not_mem hnd.1
      show dictGet (dictUpdate (dictSet d k v) t) k = some v
      rw [dictGet_dictUpdate_not_contains hct, dictGet_dictSet_self]
    | tail _ h => exact ih hnd.2 h (dictSet d p.1 p.2)

/-! ## Aggregation-loop lemmas -/

theorem lookupLoop_append (server : MMDBServer) (ip : String)
    (ms₁ ms₂ : List MMDBMeta) :
    lookupLoop server ip (ms₁ ++ ms₂) =
      ((lookupLoop server ip ms₁).1 ++ (lookupLoop server ip ms₂).1,
       (lookupLoop server ip ms₁).2 ++ (lookupLoop server ip ms₂).2) := by
  induction ms₁ with
  | nil => simp [lookupLoop]
  | cons m t ih => simp [lookupLoop, ih]

theorem lookupLoop_entries (server : MMDBServer) (ip : String)
    (ms : List MMDBMeta) :
    (lookupLoop server ip ms).1 = ms.filterMap (fun m => (dbStep server ip m).1) := by
  induction ms with
  | nil => rfl
  | cons m t ih =>
    cases h : (dbStep server ip m).1 with
    | none => simp [lookupLoop, h, ih]
    | some e => simp [lookupLoop, h, ih]

/-- Number of publish events in a trace. -/
def countPub (effs : List Eff) : Nat :=
  effs.countP (fun e => match e with | Eff.published _ _ => true | _ => false)

theorem countPub_append (a b : List Eff) :
    countPub (a ++ b) = countPub a + countPub b :=
  List.countP_append _ _ _

theorem countPub_dbStep (server : MMDBServer) (ip : String) (m : MMDBMeta) :
    countPub (dbStep server ip m).2 = 0 := by
  unfold dbStep
  cases h : m.reader ip with
  | error e => rfl
  | ok o =>
    cases o with
    | none => rfl
    | some g =>
      cases hp : process_georesult server g m ip with
      | error e => simp only [hp]; rfl
      | ok entry => simp only [hp]; rfl

theorem countPub_lookupLoop (server : MMDBServer) (ip : String)
    (ms : List MMDBMeta) : countPub (lookupLoop server ip ms).2 = 0 := by
  induction ms with
  | nil => rfl
  | cons m t ih =>
    show countPub ((dbStep server ip m).2 ++ (lookupLoop server ip t).2) = 0
    rw [countPub_append, countPub_dbStep, ih]

/-! ## process_georesult lemmas -/

theorem dictContains_of_get {α : Type} {d : List (String × α)} {k : String}
    {v : α} (h : dictGet d k = some v) : dictContains d k = true := by
  induction d with
  | nil => cases h
  | cons p t ih =>
    cases hp : p.1 == k with
    | true => simp [dictContains, hp]
    | false =>
      simp only [dictGet, hp, Bool.false_eq_true, if_false] at h
      simp [dictContains, hp, ih h]

theorem process_ok_shape {server : MMDBServer} {g : GeoResult} {m : MMDBMeta}
    {ip : String} {entry : GeoEntry}
    (h : process_georesult server g m ip = Except.ok entry) :
    ∃ ci, entry =
      dictSet (dictUpdate [("meta", metaJVal m), ("ip", JVal.str ip)] g)
        "country_info" ci := by
  unfold process_georesult at h
  cases hg : dictGet g "country" with
  | none =>
    simp only [hg] at h
    cases h
    exact ⟨_, rfl⟩
  | some cv =>
    simp only [hg] at h
    cases hk : jvalHasKey cv "iso_code" with
    | error e =>
      simp only [hk] at h
      cases h
    | ok b =>
      cases b with
      | false =>
        simp only [hk] at h
        cases h
        exact ⟨_, rfl⟩
      | true =>
        simp only [hk] at h
        cases hi : jvalIndex cv "iso_code" with
        | error e =>
          simp only [hi] at h
          cases h
        | ok code =>
          simp only [hi] at h
          cases h
          exact ⟨_, rfl⟩

theorem process_ok_get_meta {server : MMDBServer} {g : GeoResult}
    {m : MMDBMeta} {ip : String} {entry : GeoEntry}
    (h : process_georesult server g m ip = Except.ok entry)
    (hm : dictContains g "meta" = false) :
    dictGet entry "meta" = some (metaJVal m) := by
  obtain ⟨ci, rfl⟩ := process_ok_shape h
  rw [dictGet_dictSet_ne _ _ (by decide : "country_info" ≠ "meta"),
      dictGet_dictUpdate_not_contains hm]
  rfl

theorem process_ok_get_ip {server : MMDBServer} {g : GeoResult}
    {m : MMDBMeta} {ip : String} {entry : GeoEntry}
    (h : process_georesult server g m ip = Except.ok entry)
    (hip : dictContains g "ip" = false) :
    dictGet entry "ip" = some (JVal.str ip) := by
  obtain ⟨ci, rfl⟩ := process_ok_shape h
  rw [dictGet_dictSet_ne _ _ (by decide : "country_info" ≠ "ip"),
      dictGet_dictUpdate_not_contains hip]
  rfl

theorem process_ok_get_raw {server : MMDBServer} {g : GeoResult}
    {m : MMDBMeta} {ip : String} {entry : GeoEntry}
    (h : process_georesult server g m ip = Except.ok entry)
    (hci : dictContains g "country_info" = false)
    (hnd : (g.map Prod.fst).Nodup) {k : String} {v : JVal}
    (hmem : (k, v) ∈ g) : dictGet entry k = some v := by
  obtain ⟨ci, rfl⟩ := process_ok_shape h
  have hk : k ≠ "country_info" := by
    intro he
    subst he
    rw [dictContains_of_mem hmem] at hci
    cases hci
  rw [dictGet_dictSet_ne _ _ (Ne.symm hk)]
  exact dictGet_dictUpdate_mem hnd hmem _

theorem process_ok_country_absent {server : MMDBServer} {g : GeoResult}
    {m : MMDBMeta} {ip : String} {entry : GeoEntry}
    (h : process_georesult server g m ip = Except.ok entry)
    (hg : dictGet g "country" = none) :
    dictGet entry "country_info" = some (JVal.obj []) := by
  unfold process_georesult at h
  simp only [hg] at h
  cases h
  exact dictGet_dictSet_self _ _ _

theorem process_ok_country_no_iso {server : MMDBServer} {g : GeoResult}
    {m : MMDBMeta} {ip : String} {entry : GeoEntry} {fs : List (String × JVal)}
    (h : process_georesult server g m ip = Except.ok entry)
    (hg : dictGet g "country" = some (JVal.obj fs))
    (hiso : dictContains fs "iso_code" = false) :
    dictGet entry "country_info" = some (JVal.obj []) := by
  unfold process_georesult at h
  simp only [hg, jvalHasKey, hiso] at h
  cases h
  exact dictGet_dictSet_self _ _ _

theorem process_ok_country_iso {server : MMDBServer} {g : GeoResult}
    {m : MMDBMeta} {ip : String} {entry : GeoEntry} {fs : List (String × JVal)}
    {code : JVal} (h : process_georesult server g m ip = Except.ok entry)
    (hg : dictGet g "country" = some (JVal.obj fs))
    (hiso : dictGet fs "iso_code" = some code) :
    dictGet entry "country_info" = some (country_lookup server code) := by
  have hc : dictContains fs "iso_code" = true := dictContains_of_get hiso
  unfold process_georesult at h
  simp only [hg, jvalHasKey, hc, jvalIndex, hiso] at h
  cases h
  exact dictGet_dictSet_self _ _ _

/-! ## Cleanup lemmas -/

theorem closeAllMmdbs_fst (hs : List Handle) :
    (closeAllMmdbs hs).1 = hs.map (fun h => (closeHandle h).1) := by
  induction hs with
  | nil => rfl
  | cons h t ih => simp [closeAllMmdbs, ih]

theorem closeHandle_fst_idem (h : Handle) :
    (closeHandle (closeHandle h).1).1 = (closeHandle h).1 := by
  cases h with
  | mk closed closeFails =>
    cases closeFails with
    | none => rfl
    | some e => rfl

theorem closeHandle_closed_of_ok {h : Handle} (hf : h.closeFails = none) :
    ((closeHandle h).1).closed = true := by
  unfold closeHandle
  rw [hf]

theorem cleanup_fst (s : ServerRuntime) :
    (cleanup s).1 =
      { mmdbHandles := s.mmdbHandles.map (fun h => (closeHandle h).1)
        rdb := s.rdb.map (fun h => (closeHandle h).1)
        httpd := s.httpd.map (fun h => (closeHandle h).1) } := by
  unfold cleanup
  cases hr : s.rdb with
  | none =>
    cases hh : s.httpd with
    | none => simp [closeAllMmdbs_fst]
    | some h =>
      rcases hch : closeHandle h with ⟨h2, f⟩
      cases f <;> simp [closeAllMmdbs_fst, hch]
  | some h =>
    rcases hch : closeHandle h with ⟨h2, f⟩
    cases hh : s.httpd with
    | none => cases f <;> simp [closeAllMmdbs_fst, hch]
    | some h3 =>
      rcases hch3 : closeHandle h3 with ⟨h4, f3⟩
      cases f <;> cases f3 <;> simp [closeAllMmdbs_fst, hch, hch3]

theorem cleanup_idem (s : ServerRuntime) :
    (cleanup (cleanup s).1).1 = (cleanup s).1 := by
  rw [cleanup_fst, cleanup_fst]
  have hfun : ((fun h => (closeHandle h).1) ∘ fun h => (closeHandle h).1) =
      (fun h : Handle => (closeHandle h).1) :=
    funext fun h => closeHandle_fst_idem h
  simp [List.map_map, Option.map_map, hfun]

theorem closeAllMmdbs_logs_mem {hs : List Handle} {h : Handle} {e : String}
    (hmem : h ∈ hs) (hf : h.closeFails = some e) :
    ("Error closing MMDB database: " ++ e) ∈ (closeAllMmdbs hs).2 := by
  induction hs with
  | nil => cases hmem
  | cons h0 t ih =>
    cases hmem with
    | head => simp [closeAllMmdbs, closeHandle, hf]
    | tail _ hm =>
      simp only [closeAllMmdbs]
      exact List.mem_append_right _ (ih hm)

theorem cleanup_logs_mmdb (s : ServerRuntime) {h : Handle} {e : String}
    (hmem : h ∈ s.mmdbHandles) (hf : h.closeFails = some e) :
    ("Error closing MMDB database: " ++ e) ∈ (cleanup s).2 := by
  unfold cleanup
  exact List.mem_append_left _
    (List.mem_append_left _
      (List.mem_append_left _
        (List.mem_append_right _ (closeAllMmdbs_logs_mem hmem hf))))

/-! ## Startup lemmas -/

theorem load_ok (openDb : String → Except String Reader)
    (strftime : Nat → String) (r : String → Reader) :
    ∀ files : List String, (∀ f ∈ files, openDb f = Except.ok (r f)) →
    load_mmdb_databases openDb strftime files =
      Except.ok (files.map (fun f => mkMeta (r f) strftime)) := by
  intro files
  induction files with
  | nil => intro _; rfl
  | cons f t ih =>
    intro h
    have hf : openDb f = Except.ok (r f) := h f (by simp)
    have ht := ih (fun f2 hf2 => h f2 (List.mem_cons_of_mem _ hf2))
    simp [load_mmdb_databases, hf, ht]

theorem load_err (openDb : String → Except String Reader)
    (strftime : Nat → String) :
    ∀ (pre : List String) (bad : String) (rest : List String) (e : String),
    (∀ f ∈ pre, ∃ rd, openDb f = Except.ok rd) →
    openDb bad = Except.error e →
    load_mmdb_databases openDb strftime (pre ++ bad :: rest) =
      Except.error e := by
  intro pre
  induction pre with
  | nil =>
    intro bad rest e _ hbad
    simp [load_mmdb_databases, hbad]
  | cons f t ih =>
    intro bad rest e hpre hbad
    obtain ⟨rd, hrd⟩ := hpre f (by simp)
    have ht := ih bad rest e (fun f2 hf2 => hpre f2 (List.mem_cons_of_mem _ hf2)) hbad
    simp [load_mmdb_databases, hrd, ht]

/-! ## Claim theorems -/

/-- C1: the recovery the claim describes is absent from the code: with
notifications enabled and a valid address, a raising redis publish in
`pub_lookup` propagates out of `GeoLookup.on_get` uncaught — nothing is
logged by this code and no lookup response is produced. -/
theorem publish_failure_propagates_to_caller :
    geoLookupOnGet pubFailServer sampleReq "1.2.3.4" =
      ([], Except.error "Connection refused") := by
  rfl

/-- C2: a syntactically invalid address on the explicit endpoint yields
status 422 with the fixed literal body and an empty effect trace: no
reader is queried and the aggregation loop is never entered. -/
theorem invalid_address_returns_422_no_queries
    (server : MMDBServer) (req : Request) (value : String)
    (h : valid_ip_address server value = false) :
    geoLookupOnGet server req value =
      ([], Except.ok { status := 422, media := Media.str errBody }) := by
  unfold geoLookupOnGet
  rw [h]
  rfl

theorem invalid_address_returns_422_no_queries_witness :
    valid_ip_address sampleServer "203.0.113" = false ∧
    geoLookupOnGet sampleServer sampleReq "203.0.113" =
      ([], Except.ok { status := 422, media := Media.str errBody }) :=
  ⟨rfl, invalid_address_returns_422_no_queries sampleServer sampleReq
    "203.0.113" rfl⟩

/-- C3: when one database's query raises, the failure is logged with
that database's source type, only that database's entry is omitted, and
every other database contributes exactly its own result; `lookup_ip` is
a total function, so no exception leaves the aggregation. -/
theorem failing_database_isolated_and_logged
    (server : MMDBServer) (ip : String) (pre post : List MMDBMeta)
    (bad : MMDBMeta) (e : String)
    (hmm : server.mmdbs = pre ++ bad :: post)
    (hbad : bad.reader ip = Except.error e) :
    (lookup_ip server ip).1 =
      pre.filterMap (fun m => (dbStep server ip m).1) ++
      post.filterMap (fun m => (dbStep server ip m).1) ∧
    Eff.logged ("Error processing result from " ++ bad.db_source ++ ": " ++ e)
      ∈ (lookup_ip server ip).2 := by
  have hstep : dbStep server ip bad =
      (none, [Eff.dbQuery bad.db_source ip,
              Eff.logged ("Error processing result from " ++
                bad.db_source ++ ": " ++ e)]) := by
    unfold dbStep
    rw [hbad]
  unfold lookup_ip
  rw [hmm]
  constructor
  · rw [lookupLoop_append]
    simp [lookupLoop, hstep, lookupLoop_entries]
  · rw [lookupLoop_append]
    simp [lookupLoop, hstep, List.mem_append]

theorem failing_database_isolated_and_logged_witness :
    (lookup_ip sampleServer "1.2.3.4").1 =
      List.filterMap (fun m => (dbStep sampleServer "1.2.3.4" m).1) [beMeta] ++
      List.filterMap (fun m => (dbStep sampleServer "1.2.3.4" m).1) [] ∧
    Eff.logged ("Error processing result from " ++ failMeta.db_source ++ ": " ++
        "maxminddb read failure")
      ∈ (lookup_ip sampleServer "1.2.3.4").2 :=
  failing_database_isolated_and_logged sampleServer "1.2.3.4" [beMeta] []
    failMeta "maxminddb read failure" rfl rfl

/-- C4 counterexample: a database whose raw answer carries its own
`"meta"` field produces an entry whose `"meta"` is the raw value, not
the registration-time metadata (`result.update(georesult)` overrides). -/
theorem aggregation_meta_overridden_counterexample :
    (lookup_ip overrideServer "1.2.3.4").1.length = 1 ∧
    dictGet ((lookup_ip overrideServer "1.2.3.4").1.headD []) "meta" =
      some (JVal.int 0) ∧
    some (JVal.int 0) ≠ some (metaJVal metaOverrideMeta) := by
  refine ⟨rfl, rfl, ?_⟩
  simp [metaJVal]

/-- C4 (amended): the aggregated response is the in-order `filterMap`
of the per-database step over the registry — hence at most `N` entries,
in registration order, with failed or empty lookups contributing
nothing — and an entry's `"meta"` equals its database's
registration-time metadata provided the raw answer does not itself
carry a `"meta"` field. -/
theorem aggregation_shape_and_order (server : MMDBServer) (ip : String) :
    (lookup_ip server ip).1 =
      server.mmdbs.filterMap (fun m => (dbStep server ip m).1) ∧
    (lookup_ip server ip).1.length ≤ server.mmdbs.length ∧
    (∀ m e, m.reader ip = Except.error e → (dbStep server ip m).1 = none) ∧
    (∀ m, m.reader ip = Except.ok none → (dbStep server ip m).1 = none) ∧
    (∀ entry ∈ (lookup_ip server ip).1,
       ∃ m ∈ server.mmdbs, (dbStep server ip m).1 = some entry) ∧
    (∀ m g entry, m.reader ip = Except.ok (some g) →
       process_georesult server g m ip = Except.ok entry →
       dictContains g "meta" = false →
       dictGet entry "meta" = some (metaJVal m)) := by
  unfold lookup_ip
  have hent := lookupLoop_entries server ip server.mmdbs
  refine ⟨hent, ?_, ?_, ?_, ?_, ?_⟩
  · rw [hent]
    exact List.length_filterMap_le _ _
  · intro m e he
    unfold dbStep
    rw [he]
  · intro m he
    unfold dbStep
    rw [he]
  · intro entry hentry
    rw [hent] at hentry
    obtain ⟨m, hm, hsome⟩ := List.mem_filterMap.mp hentry
    exact ⟨m, hm, hsome⟩
  · intro m g entry hr hp hm
    exact process_ok_get_meta hp hm

theorem aggregation_shape_and_order_witness :
    (dbStep sampleServer "1.2.3.4" failMeta).1 = none ∧
    dictGet beEntry "meta" = some (metaJVal beMeta) :=
  ⟨(aggregation_shape_and_order sampleServer "1.2.3.4").2.2.1 failMeta
     "maxminddb read failure" rfl,
   (aggregation_shape_and_order sampleServer "1.2.3.4").2.2.2.2.2 beMeta
     beAnswer beEntry rfl rfl rfl⟩

/-- C5 counterexample: a raw answer carrying an `"ip"` field is copied
over the queried address, so the built entry's `"ip"` is not the
queried address. -/
theorem entry_ip_overridden_counterexample :
    process_georesult sampleServer ipOverrideAnswer beMeta "1.2.3.4" =
      Except.ok ipOverrideEntry ∧
    dictGet ipOverrideEntry "ip" ≠ some (JVal.str "1.2.3.4") := by
  refine ⟨rfl, ?_⟩
  simp [ipOverrideEntry, dictGet]

/-- C5 (amended): for a raw answer free of the reserved keys `"ip"`,
`"meta"`, `"country_info"` (and without duplicate keys), the built
entry holds every raw field verbatim, the queried address under
`"ip"`, the database's metadata under `"meta"`, and `"country_info"`
equal to the country-table lookup of the nested `iso_code` when the
raw answer has one and the empty record otherwise. -/
theorem entry_fields_built_correctly
    (server : MMDBServer) (g : GeoResult) (m : MMDBMeta) (ip : String)
    (entry : GeoEntry)
    (h : process_georesult server g m ip = Except.ok entry)
    (hip : dictContains g "ip" = false)
    (hmeta : dictContains g "meta" = false)
    (hci : dictContains g "country_info" = false)
    (hnd : (g.map Prod.fst).Nodup) :
    (∀ k v, (k, v) ∈ g → dictGet entry k = some v) ∧
    dictGet entry "ip" = some (JVal.str ip) ∧
    dictGet entry "meta" = some (metaJVal m) ∧
    (dictGet g "country" = none →
       dictGet entry "country_info" = some (JVal.obj [])) ∧
    (∀ fs, dictGet g "country" = some (JVal.obj fs) →
       dictContains fs "iso_code" = false →
       dictGet entry "country_info" = some (JVal.obj [])) ∧
    (∀ fs code, dictGet g "country" = some (JVal.obj fs) →
       dictGet fs "iso_code" = some code →
       dictGet entry "country_info" = some (country_lookup server code)) :=
  ⟨fun _ _ hm => process_ok_get_raw h hci hnd hm,
   process_ok_get_ip h hip,
   process_ok_get_meta h hmeta,
   fun hg => process_ok_country_absent h hg,
   fun _ hg hiso => process_ok_country_no_iso h hg hiso,
   fun _ _ hg hiso => process_ok_country_iso h hg hiso⟩

theorem entry_fields_built_correctly_witness :
    dictGet beEntry "ip" = some (JVal.str "1.2.3.4") ∧
    dictGet beEntry "country_info" =
      some (country_lookup sampleServer (JVal.str "BE")) :=
  ⟨(entry_fields_built_correctly sampleServer beAnswer beMeta "1.2.3.4" beEntry
      rfl rfl rfl rfl (by simp [beAnswer])).2.1,
   (entry_fields_built_correctly sampleServer beAnswer beMeta "1.2.3.4" beEntry
      rfl rfl rfl rfl (by simp [beAnswer])).2.2.2.2.2
     [("iso_code", JVal.str "BE")] (JVal.str "BE") rfl rfl⟩

/-- C6 counterexample: with the sentinel present as a table key, the
code returns the empty record, contradicting "returns the stored record
when the code is present in the table"; and a table keyed by `""` would
dually contradict the "empty record when the code is empty" clause,
since the code has no empty-string case at all. -/
theorem country_lookup_sentinel_counterexample :
    dictGet unknownKeyServer.country_info "Unknown" = some belgiumRecord ∧
    country_lookup unknownKeyServer (JVal.str "Unknown") = JVal.obj [] ∧
    JVal.obj [] ≠ belgiumRecord := by
  refine ⟨rfl, rfl, ?_⟩
  simp [belgiumRecord]

/-- C6 (amended): `country_lookup` is a total function that returns the
stored record when the code is a table key different from the sentinel
`"Unknown"`, and the empty record when the code is the sentinel or
absent; the empty code is not special-cased (it yields the empty record
exactly when it is not itself a table key). -/
theorem country_lookup_total_characterization
    (server : MMDBServer) (code : String) :
    (code = "Unknown" → country_lookup server (JVal.str code) = JVal.obj []) ∧
    (dictGet server.country_info code = none →
       country_lookup server (JVal.str code) = JVal.obj []) ∧
    (∀ v, code ≠ "Unknown" → dictGet server.country_info code = some v →
       country_lookup server (JVal.str code) = v) := by
  refine ⟨?_, ?_, ?_⟩
  · intro h
    subst h
    rfl
  · intro h
    simp only [country_lookup]
    by_cases hc : code = "Unknown"
    · rw [if_neg (by simp [hc])]
    · rw [if_pos hc, h]
  · intro v hne hv
    simp only [country_lookup]
    rw [if_pos hne, hv]

theorem country_lookup_total_characterization_witness :
    country_lookup sampleServer (JVal.str "Unknown") = JVal.obj [] ∧
    country_lookup sampleServer (JVal.str "FR") = JVal.obj [] ∧
    country_lookup sampleServer (JVal.str "BE") = belgiumRecord :=
  ⟨(country_lookup_total_characterization sampleServer "Unknown").1 rfl,
   (country_lookup_total_characterization sampleServer "FR").2.1 rfl,
   (country_lookup_total_characterization sampleServer "BE").2.2 belgiumRecord
     (by decide) rfl⟩

theorem countPub_cons_published (c m : String) (l : List Eff) :
    countPub (Eff.published c m :: l) = countPub l + 1 := by
  simp [countPub, List.countP_cons]

/-- C7 counterexample: with notifications enabled, an explicit-endpoint
request with an invalid address publishes nothing — the validation
short-circuit precedes `pub_lookup` — refuting "every explicit-endpoint
request causes exactly one publish". -/
theorem no_publish_on_invalid_address_counterexample :
    sampleServer.pubsub = true ∧
    (geoLookupOnGet sampleServer sampleReq "not-an-ip").1 = [] :=
  ⟨rfl, rfl⟩

/-- C7 (amended): with notifications enabled, every explicit-endpoint
request with a valid address (whose publish transport succeeds) causes
exactly one publish, with event text
`value ++ " via " ++ str(access_route) ++ " using " ++ user-agent`,
placed in the trace before every database query effect, whatever the
per-database lookup outcomes are. -/
theorem one_publish_per_valid_request
    (server : MMDBServer) (req : Request) (value : String) (n : Nat)
    (hpub : server.pubsub = true) (hrdb : server.rdb = true)
    (hvalid : valid_ip_address server value = true)
    (hsend : server.publish "mmdb-server::lookup" (eventText req value) =
      Except.ok n) :
    geoLookupOnGet server req value =
      (Eff.published "mmdb-server::lookup" (eventText req value) ::
         (lookup_ip server value).2,
       Except.ok { status := 200,
                   media := Media.entries (lookup_ip server value).1 }) ∧
    countPub (geoLookupOnGet server req value).1 = 1 := by
  have hmain : geoLookupOnGet server req value =
      (Eff.published "mmdb-server::lookup" (eventText req value) ::
         (lookup_ip server value).2,
       Except.ok { status := 200,
                   media := Media.entries (lookup_ip server value).1 }) := by
    unfold geoLookupOnGet
    rw [hvalid]
    rw [if_neg (by simp)]
    unfold pub_lookup
    rw [hpub, hrdb]
    rw [if_neg (by simp)]
    rw [hsend]
    rfl
  refine ⟨hmain, ?_⟩
  rw [hmain]
  show countPub (Eff.published "mmdb-server::lookup" (eventText req value) ::
    (lookup_ip server value).2) = 1
  have h0 : countPub (lookup_ip server value).2 = 0 :=
    countPub_lookupLoop server value server.mmdbs
  rw [countPub_cons_published, h0]

theorem one_publish_per_valid_request_witness :
    geoLookupOnGet sampleServer sampleReq "1.2.3.4" =
      (Eff.published "mmdb-server::lookup" (eventText sampleReq "1.2.3.4") ::
         (lookup_ip sampleServer "1.2.3.4").2,
       Except.ok { status := 200,
                   media := Media.entries (lookup_ip sampleServer "1.2.3.4").1 }) ∧
    countPub (geoLookupOnGet sampleServer sampleReq "1.2.3.4").1 = 1 :=
  one_publish_per_valid_request sampleServer sampleReq "1.2.3.4" 1
    rfl rfl rfl rfl

/-- C8 counterexample: a handle whose own close raises is left open —
cleanup makes a single guarded attempt and never retries — so "every
database handle ends closed even if some handle's close raises" fails
(the failure is logged and cleanup still completes). -/
theorem failed_close_leaves_handle_open_counterexample :
    (cleanup failCloseRuntime).2 =
      ["Starting graceful shutdown...",
       "Error closing MMDB database: close failure",
       "Cleanup completed"] ∧
    (cleanup failCloseRuntime).1.mmdbHandles =
      [{ closed := false, closeFails := some "close failure" }] :=
  ⟨rfl, rfl⟩

/-- C8 (amended): cleanup closes the databases, then the publisher
connection, then the listener, each step independently of the others'
failures; each raising close is only logged; the state reached is a
fixpoint (running cleanup twice changes nothing beyond logging); and
every handle whose own close does not raise ends closed, even when
other handles' closes raise. -/
theorem cleanup_failure_tolerant_idempotent (s : ServerRuntime) :
    (cleanup s).1 =
      { mmdbHandles := s.mmdbHandles.map (fun h => (closeHandle h).1)
        rdb := s.rdb.map (fun h => (closeHandle h).1)
        httpd := s.httpd.map (fun h => (closeHandle h).1) } ∧
    (cleanup (cleanup s).1).1 = (cleanup s).1 ∧
    (∀ h ∈ s.mmdbHandles, h.closeFails = none →
       ((closeHandle h).1).closed = true) ∧
    (∀ h ∈ s.mmdbHandles, ∀ e, h.closeFails = some e →
       ("Error closing MMDB database: " ++ e) ∈ (cleanup s).2) :=
  ⟨cleanup_fst s, cleanup_idem s,
   fun _ _ hf => closeHandle_closed_of_ok hf,
   fun _ hm _ hf => cleanup_logs_mmdb s hm hf⟩

theorem cleanup_failure_tolerant_idempotent_witness :
    ((closeHandle { closed := false, closeFails := none }).1).closed = true ∧
    ("Error closing MMDB database: close failure") ∈ (cleanup mixedRuntime).2 ∧
    (cleanup (cleanup mixedRuntime).1).1 = (cleanup mixedRuntime).1 :=
  ⟨(cleanup_failure_tolerant_idempotent mixedRuntime).2.2.1
     { closed := false, closeFails := none } (by simp [mixedRuntime]) rfl,
   (cleanup_failure_tolerant_idempotent mixedRuntime).2.2.2
     { closed := false, closeFails := some "close failure" }
     (by simp [mixedRuntime]) "close failure" rfl,
   (cleanup_failure_tolerant_idempotent mixedRuntime).2.1⟩

/-- C9: registry loading is all-or-nothing: with the country table
loaded, if every comma-separated path opens, the process serves with
the full registry in path order built from each reader's metadata; if
any path fails to open (the earlier ones opening), startup fails with
that exception and the process never reaches the serving state — no
partial registry exists. -/
theorem startup_all_or_nothing (ext : Externals) (cfg : Config)
    (tbl : List (String × JVal))
    (hcountry : ext.readJson cfg.country_file = Except.ok tbl) :
    (∀ pre bad rest e, splitComma cfg.mmdb_file = pre ++ bad :: rest →
       (∀ f ∈ pre, ∃ rd, ext.openDb f = Except.ok rd) →
       ext.openDb bad = Except.error e →
       mainStart ext cfg = ProcState.startupFailure e) ∧
    (∀ r : String → Reader,
       (∀ f ∈ splitComma cfg.mmdb_file, ext.openDb f = Except.ok (r f)) →
       mainStart ext cfg = ProcState.serving
         { pubsub := cfg.lookup_pubsub
           rdb := cfg.lookup_pubsub
           publish := ext.publish
           country_info := tbl
           mmdbs := (splitComma cfg.mmdb_file).map
             (fun f => mkMeta (r f) ext.strftime)
           ip_address := ext.ip_address }) := by
  constructor
  · intro pre bad rest e hsplit hpre hbad
    have hload := load_err ext.openDb ext.strftime pre bad rest e hpre hbad
    unfold mainStart serverInit
    rw [hcountry, hsplit, hload]
  · intro r hall
    have hload := load_ok ext.openDb ext.strftime r (splitComma cfg.mmdb_file) hall
    unfold mainStart serverInit
    rw [hcountry, hload]

theorem startup_all_or_nothing_witness :
    mainStart sampleExt badCfg = ProcState.startupFailure "file not found" ∧
    mainStart sampleExt goodCfg = ProcState.serving
      { pubsub := false
        rdb := false
        publish := sampleExt.publish
        country_info := [("BE", belgiumRecord)]
        mmdbs := (splitComma goodCfg.mmdb_file).map
          (fun _ => mkMeta sampleReader sampleExt.strftime)
        ip_address := sampleExt.ip_address } :=
  ⟨(startup_all_or_nothing sampleExt badCfg [("BE", belgiumRecord)] rfl).1
     ["a.mmdb"] "bad.mmdb" ["c.mmdb"] "file not found" rfl
     (by
       intro f hf
       simp only [List.mem_singleton] at hf
       subst hf
       exact ⟨sampleReader, rfl⟩)
     rfl,
   (startup_all_or_nothing sampleExt goodCfg [("BE", belgiumRecord)] rfl).2
     (fun _ => sampleReader)
     (by
       intro f hf
       have hf2 : f = "a.mmdb" ∨ f = "b.mmdb" := by
         have he : splitComma goodCfg.mmdb_file = ["a.mmdb", "b.mmdb"] := rfl
         rw [he] at hf
         simpa using hf
       have hne : f ≠ "bad.mmdb" := by
         rcases hf2 with h | h <;> simp [h]
       simp [sampleExt, hne])⟩

/-- C10: the root endpoint with an empty forwarded-address chain does
nothing — no database query, no raised error (the handler is total),
no response body; with a non-empty chain it looks up the first entry. -/
theorem root_endpoint_empty_chain_safe (server : MMDBServer) (req : Request) :
    (req.access_route = [] →
       myGeoLookupOnGet server req =
         ([], { status := 200, media := Media.unset })) ∧
    (∀ ip rest, req.access_route = ip :: rest →
       myGeoLookupOnGet server req =
         ((lookup_ip server ip).2,
          { status := 200, media := Media.entries (lookup_ip server ip).1 })) := by
  constructor
  · intro h
    unfold myGeoLookupOnGet
    rw [h]
  · intro ip rest h
    unfold myGeoLookupOnGet
    rw [h]

theorem root_endpoint_empty_chain_safe_witness :
    myGeoLookupOnGet sampleServer emptyRouteReq =
      ([], { status := 200, media := Media.unset }) ∧
    myGeoLookupOnGet sampleServer sampleReq =
      ((lookup_ip sampleServer "203.0.113.7").2,
       { status := 200,
         media := Media.entries (lookup_ip sampleServer "203.0.113.7").1 }) :=
  ⟨(root_endpoint_empty_chain_safe sampleServer emptyRouteReq).1 rfl,
   (root_endpoint_empty_chain_safe sampleServer sampleReq).2 "203.0.113.7" [] rfl⟩
